import Mathlib

/-!
Shallow embedding of `src/scripts/show_azure.py`.

The script aggregates per-task numeric result files into a markdown table.
Python floats are modelled as exact rationals (`ℚ`); the outcome of
`float(f.read().strip())` on a result file's content is abstracted by
`ParseOutcome`: a finite value `num q`, a successful parse to NaN (`nan`,
e.g. content "nan"), or a `ValueError` (`err`).  A directory entry `task`
inside a domain directory is modelled by `TaskEntry`: `present p` when
`<task>/result.txt` is a file whose content parses as `p`, and `missing`
when `os.path.isfile(<task>/result.txt)` is false (covering both a task
directory without the file and a stray non-directory entry).

The filesystem subtree at the constructed results path
`<result_dir>/<exp_name>/pyautogui/a11y_tree/<model>/0` of one experiment
is a `DomainFs`: for each domain name, `none` when `os.path.isdir` fails,
and `some entries` (in `os.listdir` order) when the directory exists.

Python's `repr` of a float is abstracted by a parameter `showQ : ℚ → String`.
`ThreadPoolExecutor.map` preserves the submission order of its inputs and
re-raises a worker's exception when the corresponding element of the result
iterator is retrieved, in submission order; it is therefore embedded as an
in-order sequential run over the `Except` monad (`runExperiments`).
-/

namespace ShowAzure

/-- Outcome of `float(content.strip())` on the text of a `result.txt` file:
a finite float with exact value `q`, a successful parse to NaN, or a
`ValueError`. -/
inductive ParseOutcome where
  | num (q : ℚ)
  | nan
  | err
deriving DecidableEq

/-- One entry of `os.listdir(domain_path)`: `present p` when
`<entry>/result.txt` is a file whose content parses as `p`; `missing` when
`os.path.isfile(<entry>/result.txt)` is false. -/
inductive TaskEntry where
  | present (p : ParseOutcome)
  | missing
deriving DecidableEq

/-- The value appended to `task_results` for one task, with `none` standing
for `np.nan` (lines 53-64: a finite parse appends the value; a parse to NaN
appends NaN; a `ValueError` or a missing file appends `np.nan`). -/
def taskValue : TaskEntry → Option ℚ
  | .present (.num q) => some q
  | .present .nan => none
  | .present .err => none
  | .missing => none

/-- The increment of `errs` contributed by one task (lines 57-64): 1 for a
`ValueError` or a missing `result.txt`, else 0. -/
def taskErr : TaskEntry → Nat
  | .present (.num _) => 0
  | .present .nan => 0
  | .present .err => 1
  | .missing => 1

/-- Whether `float(...)` succeeded on the task's `result.txt` (no error
counted; a parse to NaN succeeds). -/
def parsedOk : TaskEntry → Bool
  | .present (.num _) => true
  | .present .nan => true
  | .present .err => false
  | .missing => false

/-- The fixed list of 12 domain names iterated by `process_experiment`
(lines 44-46). -/
def domains : List String :=
  ["chrome", "libreoffice_calc", "libreoffice_writer",
   "vlc", "vs_code", "settings", "windows_calc",
   "clock", "msedge", "file_explorer", "microsoft_paint", "notepad"]

/-- The filesystem subtree of one experiment at its constructed results
path: for a domain name, `none` when the domain directory does not exist,
else the `os.listdir` entries. -/
abbrev DomainFs := String → Option (List TaskEntry)

/-- `valid_results` (line 68): the non-NaN elements of `task_results`, in
order. -/
def validValues (entries : List TaskEntry) : List ℚ :=
  (entries.map taskValue).filterMap id

/-- Lines 49-71 for one existing domain directory: build `task_results`,
then `sum(valid_results) / len(valid_results) * 100` if there is a valid
result, `None` otherwise (also `None` when `task_results` is empty). -/
def domainAggregate (entries : List TaskEntry) : Option ℚ :=
  let task_results := entries.map taskValue
  if task_results.isEmpty then none
  else
    let valid := task_results.filterMap id
    if valid.isEmpty then none
    else some (valid.sum / (valid.length : ℚ) * 100)

/-- The total increment of `errs` contributed by one existing domain
directory. -/
def domainErrs (entries : List TaskEntry) : Nat :=
  (entries.map taskErr).sum

/-- Lines 47-73 for one domain name: `(row[domain], errs increment)`.
A non-existing directory yields `(None, 0)` (the `else` branch at line 72
touches neither `errs` nor any file). -/
def processDomain (fs : DomainFs) (d : String) : Option ℚ × Nat :=
  match fs d with
  | none => (none, 0)
  | some entries => (domainAggregate entries, domainErrs entries)

/-- The `row` dict built by `process_experiment`: the four scalar columns,
the 12 domain cells in the order of `domains`, and the `*errors*` counter. -/
structure Row where
  exp_name : String
  uia_value : String
  som_origin : String
  model : String
  domainVals : List (Option ℚ)
  errors : Nat
deriving DecidableEq

/-- `process_experiment` (lines 21-76).  `exp_details` is the experiment's
JSON record as an association list.  Line 33 `exp_details["model_name"]`
raises `KeyError` when the key is absent, embedded as `.error`; the `.get`
calls at lines 24-26 use defaults instead. -/
def process_experiment (exp_name : String) (exp_details : List (String × String))
    (fs : DomainFs) : Except String Row :=
  match exp_details.lookup "model_name" with
  | none => .error ("KeyError: model_name in " ++ exp_name)
  | some _ =>
    .ok {
      exp_name := exp_name
      uia_value := if ((exp_details.lookup "a11y_backend").getD "") = "uia"
                   then "✅" else "❌"
      som_origin := (exp_details.lookup "som_origin").getD "N/A"
      model := (exp_details.lookup "model_name").getD "Unknown"
      domainVals := domains.map (fun d => (processDomain fs d).1)
      errors := (domains.map (fun d => (processDomain fs d).2)).sum
    }

/-- `required_keys` (line 14). -/
def required_keys : List String :=
  ["exp_name", "a11y_backend", "som_origin", "model_name"]

/-- The inner loop of `validate_config` (lines 16-18) over one experiment's
record: raise `(exp_name, key)` at the first required key not in the dict. -/
def checkKeys (exp_name : String) (exp_details : List (String × String)) :
    List String → Except (String × String) Unit
  | [] => .ok ()
  | k :: ks =>
    if (exp_details.lookup k).isNone then .error (exp_name, k)
    else checkKeys exp_name exp_details ks

/-- `validate_config` (lines 13-18): the first violation in configuration
order raises a `ValueError` carrying the experiment identifier and the
missing key, embedded as `.error (exp_name, key)`. -/
def validate_config : List (String × List (String × String)) →
    Except (String × String) Unit
  | [] => .ok ()
  | (n, d) :: rest =>
    match checkKeys n d required_keys with
    | .error e => .error e
    | .ok _ => validate_config rest

/-- `columns` (lines 80-83). -/
def columns : List String :=
  ["exp_name", "uia_value", "som_origin", "model",
   "chrome", "libreoffice_calc", "libreoffice_writer",
   "vlc", "vs_code", "settings", "windows_calc",
   "clock", "msedge", "file_explorer", "microsoft_paint", "notepad", "*errors*"]

/-- `str(row[col]) if row[col] is not None else ""` for a domain cell. -/
def showCell (showQ : ℚ → String) : Option ℚ → String
  | none => ""
  | some q => showQ q

/-- Line 96: one data row of the markdown table.  The cells are iterated in
`columns` order: the four scalar fields (always set, lines 23-26), the 12
domain cells, and `str(errs)`. -/
def renderRow (showQ : ℚ → String) (row : Row) : String :=
  "| " ++ String.intercalate " | "
      ([row.exp_name, row.uia_value, row.som_origin, row.model] ++
       row.domainVals.map (showCell showQ) ++ [toString row.errors]) ++ " |\n"

/-- Line 87: the markdown header row. -/
def headerLine : String :=
  "| " ++ String.intercalate " | " columns ++ " |\n"

/-- Line 88: the markdown separator row. -/
def sepLine : String :=
  "|" ++ String.intercalate " | " (List.replicate columns.length "---") ++ "|\n"

/-- Line 92: `list(executor.map(lambda exp: process_experiment(...), config.items()))`.
`ThreadPoolExecutor.map` yields results in submission order (the order of
`config.items()`); a worker's exception is re-raised when its element of
the result iterator is retrieved, so the first failing experiment in
configuration order aborts the collection. -/
def runExperiments (expFs : String → DomainFs) :
    List (String × List (String × String)) → Except String (List Row)
  | [] => .ok []
  | p :: ps =>
    match process_experiment p.1 p.2 (expFs p.1) with
    | .error e => .error e
    | .ok row =>
      match runExperiments expFs ps with
      | .error e => .error e
      | .ok rows => .ok (row :: rows)

/-- `get_results_from_json` (lines 79-102).  `expFs exp_name` is the
filesystem subtree at the experiment's constructed results path; the
returned string is the full content written to the output file in one
write. -/
def get_results_from_json (config : List (String × List (String × String)))
    (expFs : String → DomainFs) (showQ : ℚ → String) : Except String String :=
  match runExperiments expFs config with
  | .error e => .error e
  | .ok rows =>
    .ok (headerLine ++ sepLine ++ String.join (rows.map (renderRow showQ)))

/-- The entry point (lines 104-128) after the config file is loaded: the
exit status and the content written to the output file (`none` when nothing
is written).  A `ValueError` from `validate_config` is caught and exits
with status 1 before any result processing; any other uncaught exception
also terminates the process with a nonzero status and no output file
write. -/
def main (config : List (String × List (String × String)))
    (expFs : String → DomainFs) (showQ : ℚ → String) : Nat × Option String :=
  match validate_config config with
  | .error _ => (1, none)
  | .ok _ =>
    match get_results_from_json config expFs showQ with
    | .error _ => (1, none)
    | .ok out => (0, some out)

/-- All experiments have all four required keys (the property
`validate_config` decides). -/
def allValid (config : List (String × List (String × String))) : Bool :=
  config.all (fun p => required_keys.all (fun k => ((p.2).lookup k).isSome))

/-- The first required key (in `required_keys` order) missing from a
record, if any. -/
def firstMissing (exp_details : List (String × String)) : Option String :=
  required_keys.find? (fun k => (exp_details.lookup k).isNone)

/-- Total number of entries enumerated across all existing domain
directories of one experiment. -/
def totalEntries (fs : DomainFs) : ℕ :=
  (domains.map (fun d =>
    match fs d with
    | none => 0
    | some es => es.length)).sum

/-- Total number of `result.txt` files successfully parsed by `float(...)`
(a parse to NaN counts as a success). -/
def totalParsed (fs : DomainFs) : ℕ :=
  (domains.map (fun d =>
    match fs d with
    | none => 0
    | some es => (es.filter parsedOk).length)).sum

/-- Concrete subtree for the C1 counterexample: a `chrome` directory with
two tasks whose result files contain 50.0 and 100.0. -/
def fsChrome50100 : DomainFs := fun d =>
  if d = "chrome" then some [.present (.num 50), .present (.num 100)] else none

/-- Concrete subtree for the C1 witness: a `chrome` directory with two
tasks whose result files contain 0.5 and 1.0. -/
def fs05 : DomainFs := fun d =>
  if d = "chrome"
  then some [TaskEntry.present (ParseOutcome.num (1/2)), TaskEntry.present (ParseOutcome.num 1)]
  else none

/-- Concrete subtree for the C5 witness: an existing but empty `chrome`
directory. -/
def fsEmptyChrome : DomainFs := fun d => if d = "chrome" then some [] else none

/-- Concrete subtree for the C8 witness: a `chrome` directory whose two
tasks both have a result file containing "nan". -/
def fsNanChrome : DomainFs := fun d =>
  if d = "chrome"
  then some [TaskEntry.present ParseOutcome.nan, TaskEntry.present ParseOutcome.nan]
  else none

/-- Concrete subtree for the C9 witness: a `chrome` directory with one
parseable result file and one entry without a result file. -/
def fs9 : DomainFs := fun d =>
  if d = "chrome"
  then some [TaskEntry.present (ParseOutcome.num 1), TaskEntry.missing]
  else none

/-- The aggregate of lines 67-71 equals the mean-times-100 of the valid
values whenever at least one value is valid, and is absent otherwise. -/
theorem domainAggregate_eq (entries : List TaskEntry) :
    domainAggregate entries =
      if validValues entries = [] then none
      else some ((validValues entries).sum / ((validValues entries).length : ℚ) * 100) := by
  cases entries with
  | nil => simp [domainAggregate, validValues]
  | cons e es =>
    simp only [domainAggregate, validValues, List.map_cons, List.isEmpty_cons,
      Bool.false_eq_true, if_false]
    split <;> split <;> simp_all [List.isEmpty_iff]

theorem validValues_append (xs ys : List TaskEntry) :
    validValues (xs ++ ys) = validValues xs ++ validValues ys := by
  simp [validValues, List.filterMap_append]

theorem domainErrs_append (xs ys : List TaskEntry) :
    domainErrs (xs ++ ys) = domainErrs xs + domainErrs ys := by
  simp [domainErrs]

/-- When `process_experiment` returns a row, the row is exactly the record
built at lines 22-26 and 44-75. -/
theorem process_experiment_ok (name : String) (details : List (String × String))
    (fs : DomainFs) (row : Row) (h : process_experiment name details fs = .ok row) :
    row = { exp_name := name,
            uia_value := if ((details.lookup "a11y_backend").getD "") = "uia"
                         then "✅" else "❌",
            som_origin := (details.lookup "som_origin").getD "N/A",
            model := (details.lookup "model_name").getD "Unknown",
            domainVals := domains.map (fun d => (processDomain fs d).1),
            errors := (domains.map (fun d => (processDomain fs d).2)).sum } := by
  unfold process_experiment at h
  cases hm : details.lookup "model_name" with
  | none => rw [hm] at h; exact (Except.noConfusion h)
  | some m =>
    rw [hm] at h
    simp only [Except.ok.injEq] at h
    exact h.symm

theorem validValues_nil_of_all_none (entries : List TaskEntry)
    (h : ∀ e ∈ entries, taskValue e = none) : validValues entries = [] := by
  induction entries with
  | nil => rfl
  | cons e es ih =>
    simp only [validValues, List.map_cons, List.filterMap_cons, h e (List.mem_cons_self e es),
      id_eq]
    exact ih (fun x hx => h x (List.mem_cons_of_mem e hx))

theorem domainErrs_zero_of_all_zero (entries : List TaskEntry)
    (h : ∀ e ∈ entries, taskErr e = 0) : domainErrs entries = 0 := by
  induction entries with
  | nil => rfl
  | cons e es ih =>
    simp only [domainErrs, List.map_cons, List.sum_cons] at *
    rw [h e (List.mem_cons_self e es), ih (fun x hx => h x (List.mem_cons_of_mem e hx))]

theorem taskErr_eq_cond (e : TaskEntry) :
    taskErr e = if parsedOk e then 0 else 1 := by
  cases e with
  | missing => rfl
  | present p => cases p <;> rfl

/-- The error increment of one domain equals the number of its entries
minus the number of parse successes among them. -/
theorem domainErrs_eq_sub (entries : List TaskEntry) :
    domainErrs entries = entries.length - (entries.filter parsedOk).length ∧
    (entries.filter parsedOk).length ≤ entries.length := by
  induction entries with
  | nil => simp [domainErrs]
  | cons e es ih =>
    obtain ⟨ih1, ih2⟩ := ih
    have he := taskErr_eq_cond e
    by_cases hp : parsedOk e = true <;>
      simp only [domainErrs, List.map_cons, List.sum_cons, List.filter_cons, hp,
        List.length_cons, if_true, if_false, Bool.false_eq_true] at * <;>
      omega

theorem map_sum_sub {α : Type} (l : List α) (f g : α → ℕ) :
    (∀ x ∈ l, g x ≤ f x) →
    (l.map fun x => f x - g x).sum = (l.map f).sum - (l.map g).sum ∧
    (l.map g).sum ≤ (l.map f).sum := by
  induction l with
  | nil => intro _; simp
  | cons a as ih =>
    intro h
    obtain ⟨ih1, ih2⟩ := ih (fun x hx => h x (List.mem_cons_of_mem a hx))
    have ha := h a (List.mem_cons_self a as)
    simp only [List.map_cons, List.sum_cons, ih1]
    omega

/-- The rows collected by `runExperiments` carry the experiment names of
the configuration, in configuration order. -/
theorem runExperiments_names (expFs : String → DomainFs) :
    ∀ (config : List (String × List (String × String))) (rows : List Row),
      runExperiments expFs config = .ok rows →
      rows.map Row.exp_name = config.map Prod.fst := by
  intro config
  induction config with
  | nil =>
    intro rows h
    simp only [runExperiments, Except.ok.injEq] at h
    subst h
    rfl
  | cons p ps ih =>
    intro rows h
    unfold runExperiments at h
    cases hp : process_experiment p.1 p.2 (expFs p.1) with
    | error e => rw [hp] at h; exact (Except.noConfusion h)
    | ok row =>
      rw [hp] at h
      cases hr : runExperiments expFs ps with
      | error e => rw [hr] at h; exact (Except.noConfusion h)
      | ok rs =>
        rw [hr] at h
        simp only [Except.ok.injEq] at h
        subst h
        have hname : row.exp_name = p.1 := by
          rw [process_experiment_ok p.1 p.2 (expFs p.1) row hp]
        simp [hname, ih rs hr]

theorem checkKeys_ok_iff (n : String) (d : List (String × String)) (ks : List String) :
    checkKeys n d ks = .ok () ↔ ks.all (fun k => (d.lookup k).isSome) = true := by
  induction ks with
  | nil => simp [checkKeys]
  | cons x xs ih =>
    cases hx : List.lookup x d with
    | none => simp [checkKeys, hx, List.all_cons]
    | some v => simp [checkKeys, hx, List.all_cons, ih]

theorem checkKeys_error_of_find (n : String) (d : List (String × String))
    (ks : List String) (k : String)
    (h : ks.find? (fun x => (d.lookup x).isNone) = some k) :
    checkKeys n d ks = .error (n, k) := by
  induction ks with
  | nil => simp [List.find?] at h
  | cons x xs ih =>
    by_cases hx : (List.lookup x d).isNone = true
    · rw [List.find?_cons_of_pos (p := fun y => (List.lookup y d).isNone) xs hx] at h
      simp only [Option.some.injEq] at h
      subst h
      simp [checkKeys, hx]
    · rw [List.find?_cons_of_neg (p := fun y => (List.lookup y d).isNone) xs
        (by simpa using hx)] at h
      simp [checkKeys, hx, ih h]

/-- `validate_config` succeeds exactly when every record has all four
required keys. -/
theorem validate_ok_iff (config : List (String × List (String × String))) :
    validate_config config = .ok () ↔ allValid config = true := by
  induction config with
  | nil => simp [validate_config, allValid]
  | cons p ps ih =>
    obtain ⟨n, d⟩ := p
    cases hc : checkKeys n d required_keys with
    | error e =>
      have hnall : required_keys.all (fun k => (d.lookup k).isSome) = false := by
        cases hb : required_keys.all (fun k => (d.lookup k).isSome) with
        | true =>
          rw [(checkKeys_ok_iff n d required_keys).mpr hb] at hc
          exact (Except.noConfusion hc)
        | false => rfl
      simp [validate_config, hc, allValid, List.all_cons, hnall]
    | ok u =>
      cases u
      have hall := (checkKeys_ok_iff n d required_keys).mp hc
      simp only [validate_config, hc, allValid, List.all_cons, hall, Bool.true_and]
      exact ih

/-- A fully valid prefix of the configuration is skipped without raising. -/
theorem validate_skip_valid (pre rest : List (String × List (String × String)))
    (hpre : allValid pre = true) :
    validate_config (pre ++ rest) = validate_config rest := by
  induction pre with
  | nil => rfl
  | cons p ps ih =>
    revert hpre
    intro hpre
    obtain ⟨n, d⟩ := p
    simp only [allValid, List.all_cons, Bool.and_eq_true] at hpre
    have hck : checkKeys n d required_keys = .ok () :=
      (checkKeys_ok_iff n d required_keys).mpr hpre.1
    simp only [List.cons_append, validate_config, hck]
    exact ih hpre.2

/-- C1 (amended): for every experiment row and every domain (given by its
index in the fixed list of 12) whose directory exists and contains at
least one task entry with a valid, non-NaN result value, the domain
aggregate computed by `process_experiment` equals exactly
(sum of valid values / count of valid values) * 100. -/
theorem domain_aggregate_formula (name : String) (details : List (String × String))
    (fs : DomainFs) (row : Row) (h : process_experiment name details fs = .ok row)
    (i : ℕ) (hi : i < domains.length) (entries : List TaskEntry)
    (hfs : fs (domains.get ⟨i, hi⟩) = some entries)
    (hvalid : validValues entries ≠ []) :
    row.domainVals[i]? =
      some (some ((validValues entries).sum / ((validValues entries).length : ℚ) * 100)) := by
  have hrow := process_experiment_ok name details fs row h
  subst hrow
  rw [List.get_eq_getElem] at hfs
  simp only [List.getElem?_map, List.getElem?_eq_getElem hi, Option.map_some]
  simp [processDomain, hfs, domainAggregate_eq, hvalid]

/-- C1 counterexample: a chrome directory with valid values 50.0 and 100.0
yields the aggregate 7500, not 75 as the claim's example states (the
values in the claimed example are not on the 0-1 scale the formula
multiplies by 100). -/
theorem domain_aggregate_example_cex :
    ∃ row, process_experiment "expA" [("model_name", "m")] fsChrome50100 = .ok row ∧
      row.domainVals[0]? = some (some 7500) ∧ (7500 : ℚ) ≠ 75 := by
  refine ⟨_, rfl, ?_, by norm_num⟩
  simp [domains, processDomain, fsChrome50100, domainAggregate, taskValue,
    List.filterMap_cons]
  norm_num

/-- C1 witness: a chrome directory with valid values 0.5 and 1.0 yields the
aggregate 75. -/
theorem domain_aggregate_formula_witness :
    ∃ row, process_experiment "expA" [("model_name", "m")] fs05 = .ok row ∧
      row.domainVals[0]? = some (some 75) := by
  refine ⟨_, rfl, ?_⟩
  have h := domain_aggregate_formula "expA" [("model_name", "m")] fs05 _ rfl 0 (by decide)
      [TaskEntry.present (ParseOutcome.num (1/2)), TaskEntry.present (ParseOutcome.num 1)]
      rfl (by simp [validValues, taskValue])
  rw [h]
  norm_num [validValues, taskValue, List.filterMap_cons]

/-- C2: per-task policy of `process_experiment`.  A task whose result file
parses as a (finite) floating-point value `q` appends `q` to the valid
values that the mean is taken over and does not touch the error counter;
a task whose result file exists but does not parse increments the error
counter by one and contributes nothing to the valid values; a task without
a result file increments the error counter by one and contributes nothing;
and the domain aggregate is the mean of exactly the valid values times
100 (absent when there are none). -/
theorem per_task_policy (entries : List TaskEntry) (q : ℚ) :
    validValues (entries ++ [.present (.num q)]) = validValues entries ++ [q] ∧
    domainErrs (entries ++ [.present (.num q)]) = domainErrs entries ∧
    validValues (entries ++ [.present .err]) = validValues entries ∧
    domainErrs (entries ++ [.present .err]) = domainErrs entries + 1 ∧
    validValues (entries ++ [.missing]) = validValues entries ∧
    domainErrs (entries ++ [.missing]) = domainErrs entries + 1 ∧
    domainAggregate entries =
      (if validValues entries = [] then none
       else some ((validValues entries).sum / ((validValues entries).length : ℚ) * 100)) := by
  refine ⟨?_, ?_, ?_, ?_, ?_, ?_, domainAggregate_eq entries⟩ <;>
    simp [validValues_append, domainErrs_append, validValues, domainErrs, taskValue, taskErr]

/-- C3: `validate_config` raises exactly when some record lacks one of the
four required keys; the error reports the first offending experiment in
configuration order together with its first missing key in
`required_keys` order, and on such a failure the program exits with status
1 without writing any output.  (`validate_config` is a pure check by
construction.) -/
theorem validate_config_spec (config : List (String × List (String × String)))
    (expFs : String → DomainFs) (showQ : ℚ → String)
    (pre post : List (String × List (String × String)))
    (n : String) (d : List (String × String)) (k : String)
    (hsplit : config = pre ++ (n, d) :: post)
    (hpre : allValid pre = true)
    (hfirst : firstMissing d = some k) :
    validate_config config = .error (n, k) ∧
    main config expFs showQ = (1, none) ∧
    (∀ cfg, validate_config cfg = .ok () ↔ allValid cfg = true) := by
  subst hsplit
  have hv : validate_config (pre ++ (n, d) :: post) = .error (n, k) := by
    rw [validate_skip_valid pre _ hpre]
    have hck : checkKeys n d required_keys = .error (n, k) :=
      checkKeys_error_of_find n d required_keys k hfirst
    simp [validate_config, hck]
  exact ⟨hv, by simp [main, hv], validate_ok_iff⟩

/-- C3 witness: a configuration whose second record lacks `a11y_backend`
fails with that experiment and key, and the program exits with status 1
without output. -/
theorem validate_config_spec_witness :
    validate_config
      [("good", [("exp_name", "g"), ("a11y_backend", "uia"), ("som_origin", "s"),
        ("model_name", "m")]), ("bad", [("exp_name", "b")])] = .error ("bad", "a11y_backend") ∧
    main [("good", [("exp_name", "g"), ("a11y_backend", "uia"), ("som_origin", "s"),
        ("model_name", "m")]), ("bad", [("exp_name", "b")])]
      (fun _ _ => none) (fun _ => "") = (1, none) ∧
    (∀ cfg, validate_config cfg = .ok () ↔ allValid cfg = true) :=
  validate_config_spec
    [("good", [("exp_name", "g"), ("a11y_backend", "uia"), ("som_origin", "s"),
      ("model_name", "m")]), ("bad", [("exp_name", "b")])]
    (fun _ _ => none) (fun _ => "")
    [("good", [("exp_name", "g"), ("a11y_backend", "uia"), ("som_origin", "s"),
      ("model_name", "m")])] []
    "bad" [("exp_name", "b")] "a11y_backend"
    rfl rfl rfl

/-- C4: whenever `get_results_from_json` produces an output, its data rows
are exactly the rows of the experiments in the original configuration's
iteration order, one per experiment (the concurrent map is collected in
submission order). -/
theorem output_rows_follow_config_order (config : List (String × List (String × String)))
    (expFs : String → DomainFs) (showQ : ℚ → String) (out : String)
    (h : get_results_from_json config expFs showQ = .ok out) :
    ∃ rows, runExperiments expFs config = .ok rows ∧
      rows.map Row.exp_name = config.map Prod.fst ∧
      out = headerLine ++ sepLine ++ String.join (rows.map (renderRow showQ)) := by
  unfold get_results_from_json at h
  cases hr : runExperiments expFs config with
  | error e => rw [hr] at h; exact (Except.noConfusion h)
  | ok rows =>
    rw [hr] at h
    simp only [Except.ok.injEq] at h
    exact ⟨rows, rfl, runExperiments_names expFs config rows hr, h.symm⟩

set_option maxRecDepth 8000 in
/-- C4 witness: a two-experiment configuration yields a table whose data
rows carry "a" then "b", in configuration order. -/
theorem output_rows_follow_config_order_witness :
    ∃ rows, runExperiments (fun _ _ => none)
        [("a", [("model_name", "m")]), ("b", [("model_name", "m")])] = .ok rows ∧
      rows.map Row.exp_name =
        ([("a", [("model_name", "m")]), ("b", [("model_name", "m")])] :
          List (String × List (String × String))).map Prod.fst ∧
      "| exp_name | uia_value | som_origin | model | chrome | libreoffice_calc | libreoffice_writer | vlc | vs_code | settings | windows_calc | clock | msedge | file_explorer | microsoft_paint | notepad | *errors* |\n|--- | --- | --- | --- | --- | --- | --- | --- | --- | --- | --- | --- | --- | --- | --- | --- | ---|\n| a | ❌ | N/A | m |  |  |  |  |  |  |  |  |  |  |  |  | 0 |\n| b | ❌ | N/A | m |  |  |  |  |  |  |  |  |  |  |  |  | 0 |\n" =
        headerLine ++ sepLine ++ String.join (rows.map (renderRow (fun _ => ""))) :=
  output_rows_follow_config_order
    [("a", [("model_name", "m")]), ("b", [("model_name", "m")])] (fun _ _ => none)
    (fun _ => "")
    "| exp_name | uia_value | som_origin | model | chrome | libreoffice_calc | libreoffice_writer | vlc | vs_code | settings | windows_calc | clock | msedge | file_explorer | microsoft_paint | notepad | *errors* |\n|--- | --- | --- | --- | --- | --- | --- | --- | --- | --- | --- | --- | --- | --- | --- | --- | ---|\n| a | ❌ | N/A | m |  |  |  |  |  |  |  |  |  |  |  |  | 0 |\n| b | ❌ | N/A | m |  |  |  |  |  |  |  |  |  |  |  |  | 0 |\n"
    rfl

/-- C5: a domain whose directory exists but yields zero valid task values
has an absent aggregate (not zero), and in the empty-directory case the
error counter is not incremented. -/
theorem zero_valid_values_absent_aggregate (fs : DomainFs) (d : String)
    (entries : List TaskEntry)
    (h : fs d = some entries) (hv : validValues entries = []) :
    (processDomain fs d).1 = none ∧ (entries = [] → processDomain fs d = (none, 0)) := by
  constructor
  · simp [processDomain, h, domainAggregate_eq, hv]
  · intro he
    subst he
    simp [processDomain, h, domainAggregate, domainErrs]

/-- C5 witness: an existing empty chrome directory yields an absent
aggregate and no error increment. -/
theorem zero_valid_values_absent_aggregate_witness :
    (processDomain fsEmptyChrome "chrome").1 = none ∧
    (([] : List TaskEntry) = [] → processDomain fsEmptyChrome "chrome" = (none, 0)) :=
  zero_valid_values_absent_aggregate fsEmptyChrome "chrome" [] rfl rfl

/-- C6: a domain whose directory does not exist has an absent cell in the
row, contributes zero to the error counter, and the row's error counter is
the sum of the per-domain contributions, so that domain leaves it
unchanged. -/
theorem missing_domain_dir_no_effect (name : String) (details : List (String × String))
    (fs : DomainFs) (row : Row) (h : process_experiment name details fs = .ok row)
    (i : ℕ) (hi : i < domains.length) (hd : fs (domains.get ⟨i, hi⟩) = none) :
    row.domainVals[i]? = some none ∧
    processDomain fs (domains.get ⟨i, hi⟩) = (none, 0) ∧
    row.errors = (domains.map (fun d => (processDomain fs d).2)).sum := by
  have hrow := process_experiment_ok name details fs row h
  subst hrow
  rw [List.get_eq_getElem] at hd
  refine ⟨?_, ?_, rfl⟩
  · simp [List.getElem?_map, List.getElem?_eq_getElem hi, processDomain, hd]
  · simp [processDomain, hd]

/-- C6 witness: with no domain directory at all, the chrome cell is absent
and chrome contributes zero errors. -/
theorem missing_domain_dir_no_effect_witness :
    ∃ row, process_experiment "expA" [("model_name", "m")] (fun _ => none) = .ok row ∧
      (row.domainVals[0]? = some none ∧
       processDomain (fun _ => none) (domains.get ⟨0, by decide⟩) = (none, 0) ∧
       row.errors = (domains.map (fun d => (processDomain (fun _ => none) d).2)).sum) :=
  ⟨_, rfl, missing_domain_dir_no_effect "expA" [("model_name", "m")] (fun _ => none) _ rfl 0
    (by decide) rfl⟩

/-- C7 counterexample: an experiment record with `a11y_backend`,
`som_origin` and `exp_name` but without `model_name` makes
`process_experiment` raise (line 33 indexes the dict directly), so the
processor is not exception-free on every record. -/
theorem processor_raises_on_missing_model_cex :
    ∃ e, process_experiment "expA"
      [("exp_name", "expA"), ("a11y_backend", "uia"), ("som_origin", "s")]
      (fun _ => none) = Except.error e := ⟨_, rfl⟩

/-- C7 (amended): for every experiment record that contains `model_name`,
`process_experiment` raises no exception; the backend glyph is the enabled
glyph exactly when `a11y_backend` equals "uia" and the disabled glyph
otherwise, and the origin and model fields pass through verbatim or fall
back to their default placeholders when absent. -/
theorem processor_fields_total (name : String) (details : List (String × String))
    (fs : DomainFs) (h : (details.lookup "model_name").isSome = true) :
    ∃ row, process_experiment name details fs = .ok row ∧
      row.uia_value = (if details.lookup "a11y_backend" = some "uia" then "✅" else "❌") ∧
      row.som_origin = (details.lookup "som_origin").getD "N/A" ∧
      row.model = (details.lookup "model_name").getD "Unknown" := by
  cases hm : details.lookup "model_name" with
  | none => rw [hm] at h; simp at h
  | some m =>
    refine ⟨{ exp_name := name,
              uia_value := if ((details.lookup "a11y_backend").getD "") = "uia"
                           then "✅" else "❌",
              som_origin := (details.lookup "som_origin").getD "N/A",
              model := (details.lookup "model_name").getD "Unknown",
              domainVals := domains.map (fun d => (processDomain fs d).1),
              errors := (domains.map (fun d => (processDomain fs d).2)).sum },
            ?_, ?_, rfl, ?_⟩
    · unfold process_experiment
      rw [hm]
    · cases ha : details.lookup "a11y_backend" with
      | none => simp [ha]
      | some s => by_cases hs : s = "uia" <;> simp [ha, hs]
    · simp [hm]

/-- C7 witness: a fully populated record is processed without exception
with the enabled glyph and verbatim origin and model fields. -/
theorem processor_fields_total_witness :
    ∃ row, process_experiment "expA"
        [("exp_name", "expA"), ("a11y_backend", "uia"), ("som_origin", "og"), ("model_name", "m")]
        (fun _ => none) = .ok row ∧
      row.uia_value = (if ([("exp_name", "expA"), ("a11y_backend", "uia"), ("som_origin", "og"),
          ("model_name", "m")] : List (String × String)).lookup "a11y_backend" = some "uia"
        then "✅" else "❌") ∧
      row.som_origin = (([("exp_name", "expA"), ("a11y_backend", "uia"), ("som_origin", "og"),
          ("model_name", "m")] : List (String × String)).lookup "som_origin").getD "N/A" ∧
      row.model = (([("exp_name", "expA"), ("a11y_backend", "uia"), ("som_origin", "og"),
          ("model_name", "m")] : List (String × String)).lookup "model_name").getD "Unknown" :=
  processor_fields_total "expA"
    [("exp_name", "expA"), ("a11y_backend", "uia"), ("som_origin", "og"), ("model_name", "m")]
    (fun _ => none) rfl

/-- C8: a result file whose content parses as NaN counts no error yet is
excluded from the mean, so a domain whose every task parses as NaN yields
an absent aggregate with zero errors; and finite out-of-range values such
as 2.0 are valid, so an aggregate can exceed 100 (here 200). -/
theorem nan_excluded_without_error (fs : DomainFs) (d : String)
    (entries : List TaskEntry)
    (h : fs d = some entries)
    (hall : ∀ e ∈ entries, e = TaskEntry.present ParseOutcome.nan) :
    taskErr (TaskEntry.present ParseOutcome.nan) = 0 ∧
    taskValue (TaskEntry.present ParseOutcome.nan) = none ∧
    processDomain fs d = (none, 0) ∧
    domainAggregate [TaskEntry.present (ParseOutcome.num 2)] = some 200 ∧
    (100 : ℚ) < 200 := by
  refine ⟨rfl, rfl, ?_, ?_, by norm_num⟩
  · have hv : validValues entries = [] :=
      validValues_nil_of_all_none entries (fun e he => by rw [hall e he]; rfl)
    have hz : domainErrs entries = 0 :=
      domainErrs_zero_of_all_zero entries (fun e he => by rw [hall e he]; rfl)
    simp [processDomain, h, domainAggregate_eq, hv, hz]
  · simp [domainAggregate, taskValue, List.filterMap_cons]
    norm_num

/-- C8 witness: a chrome directory whose two result files both contain
"nan" yields an absent aggregate and zero errors. -/
theorem nan_excluded_without_error_witness :
    taskErr (TaskEntry.present ParseOutcome.nan) = 0 ∧
    taskValue (TaskEntry.present ParseOutcome.nan) = none ∧
    processDomain fsNanChrome "chrome" = (none, 0) ∧
    domainAggregate [TaskEntry.present (ParseOutcome.num 2)] = some 200 ∧
    (100 : ℚ) < 200 :=
  nan_excluded_without_error fsNanChrome "chrome"
    [TaskEntry.present ParseOutcome.nan, TaskEntry.present ParseOutcome.nan] rfl (by decide)

/-- C9: the row's `*errors*` field equals the total number of entries
enumerated across all existing domain directories minus the number of
result files successfully parsed (a parse to NaN counts as a success); a
stray entry without `result.txt` counts one error, since only the
existence of `<entry>/result.txt` is checked. -/
theorem errors_equals_entries_minus_parsed (name : String)
    (details : List (String × String))
    (fs : DomainFs) (row : Row) (h : process_experiment name details fs = .ok row) :
    row.errors = totalEntries fs - totalParsed fs ∧ taskErr TaskEntry.missing = 1 := by
  have hrow := process_experiment_ok name details fs row h
  subst hrow
  refine ⟨?_, rfl⟩
  have hcong : (domains.map (fun d => (processDomain fs d).2)) =
      (domains.map (fun d =>
        (match fs d with | none => 0 | some es => es.length) -
        (match fs d with | none => 0 | some es => (es.filter parsedOk).length))) := by
    refine List.map_congr_left (fun d _ => ?_)
    cases hd : fs d with
    | none => simp [processDomain, hd]
    | some es => simp [processDomain, hd, (domainErrs_eq_sub es).1]
  have hle : ∀ d ∈ domains,
      (match fs d with | none => 0 | some es => (es.filter parsedOk).length) ≤
      (match fs d with | none => 0 | some es => es.length) := by
    intro d _
    cases hd : fs d with
    | none => simp
    | some es => simpa using (domainErrs_eq_sub es).2
  simp only [hcong]
  exact (map_sum_sub domains _ _ hle).1

/-- C9 witness: one parsed task and one entry without a result file give
an error count of 2 - 1. -/
theorem errors_equals_entries_minus_parsed_witness :
    ∃ row, process_experiment "expA" [("model_name", "m")] fs9 = .ok row ∧
      (row.errors = totalEntries fs9 - totalParsed fs9 ∧ taskErr TaskEntry.missing = 1) :=
  ⟨_, rfl, errors_equals_entries_minus_parsed "expA" [("model_name", "m")] fs9 _ rfl⟩

set_option maxRecDepth 8000 in
/-- C10: for an empty configuration, `get_results_from_json` succeeds and
the single string written to the output file consists of exactly the
header row with the 17 fixed column names and the separator row, with no
data rows. -/
theorem empty_config_header_only (expFs : String → DomainFs) (showQ : ℚ → String) :
    get_results_from_json [] expFs showQ = .ok (headerLine ++ sepLine) ∧
    headerLine ++ sepLine =
      "| exp_name | uia_value | som_origin | model | chrome | libreoffice_calc | libreoffice_writer | vlc | vs_code | settings | windows_calc | clock | msedge | file_explorer | microsoft_paint | notepad | *errors* |\n|--- | --- | --- | --- | --- | --- | --- | --- | --- | --- | --- | --- | --- | --- | --- | --- | ---|\n" ∧
    columns.length = 17 := by
  refine ⟨?_, rfl, rfl⟩
  show Except.ok (headerLine ++ sepLine ++ String.join []) = _
  rw [String.join]
  simp

end ShowAzure
